import Mathlib

/-!
Shallow embedding of the Ai-Resume-portfolio repository's keyword engine
(`src/utils/ats.py`) and text-generation module (`src/utils/Utills/llm.py`),
together with proofs about them.

Conventions of the embedding:
* Python strings are Lean `String`s; `len` is `String.length` (both count
  characters).  The regex class `\s` and `str.lower` are modelled on their
  ASCII behaviour (the job-description texts the program processes are ASCII;
  Lean's `Char.toLower` lowers exactly the ASCII range, matching CPython on
  that range).
* `None` is `Option.none`; Python's falsiness test `if not text` on an
  optional string is `none` or `some ""`.
* Python `round(x, 1)` on the exact rational value is modelled with
  Mathlib's `round` (ties cannot arise in the quantities proved here).
* Dictionaries are association lists; where mutation matters (the
  `merge_keywords` frame property) an explicit heap of dictionary objects
  is used.
-/

/-! ### Python string primitives -/

/-- ASCII whitespace matched by the regex class `\s` and by `str.split()` /
`str.strip()` with no argument. -/
def pySpaceChars : List Char := [' ', '\t', '\n', '\r', '\x0b', '\x0c']

def isPySpace (c : Char) : Bool := c ∈ pySpaceChars

/-- Characters NOT replaced by a space by the first `re.sub` in
`ATSExtractor.clean_text`: letters, digits, whitespace, dash, slash,
ampersand, plus. -/
def isKeptChar (c : Char) : Bool :=
  decide ('A' ≤ c ∧ c ≤ 'Z') || decide ('a' ≤ c ∧ c ≤ 'z') ||
  decide ('0' ≤ c ∧ c ≤ '9') || isPySpace c || c ∈ ['-', '/', '&', '+']

/-- `re.sub(r'\s+', ' ', text)`: every maximal run of whitespace becomes a
single space. -/
def collapseWS : List Char → List Char
  | [] => []
  | [c] => if isPySpace c then [' '] else [c]
  | c1 :: c2 :: rest =>
    if isPySpace c1 then
      if isPySpace c2 then collapseWS (c2 :: rest)
      else ' ' :: collapseWS (c2 :: rest)
    else c1 :: collapseWS (c2 :: rest)

/-- `str.strip(chars)`: remove the characters of `cs` from both ends. -/
def pyStripChars (cs : List Char) (s : List Char) : List Char :=
  (((s.dropWhile (· ∈ cs)).reverse).dropWhile (· ∈ cs)).reverse

/-- `str.split()` with no separator: split on whitespace runs, dropping
empty pieces. -/
def pySplitAux : List Char → List Char → List String
  | [], acc => if acc = [] then [] else [⟨acc.reverse⟩]
  | c :: rest, acc =>
    if isPySpace c then
      if acc = [] then pySplitAux rest []
      else ⟨acc.reverse⟩ :: pySplitAux rest []
    else pySplitAux rest (c :: acc)

def pySplit (s : String) : List String := pySplitAux s.data []

/-- `str.startswith(p)`. -/
def pyStartsWith (s p : String) : Bool := decide (p.data <+: s.data)

/-- `p in s` (substring test). -/
def pyContainsSub (s p : String) : Bool := decide (p.data <:+: s.data)

/-- `str.lower()` (ASCII range, matching CPython there). -/
def pyLower (s : String) : String := ⟨s.data.map Char.toLower⟩

/-- Lexicographic ≤ on code-point sequences: Python's `<=` on strings. -/
def strLeChars : List Char → List Char → Bool
  | [], _ => true
  | _ :: _, [] => false
  | c :: cs, d :: ds =>
    if c.toNat < d.toNat then true
    else if d.toNat < c.toNat then false
    else strLeChars cs ds

/-- `a <= b` on Python strings (lexicographic by code point). -/
def pyStrLE (a b : String) : Bool := strLeChars a.data b.data

/-! ### `src/utils/ats.py` — class ATSExtractor -/

namespace ATSExtractor

/-- The `STOPWORDS` set (the Python literal lists "that" twice; as a set it
holds each word once). -/
def STOPWORDS : List String :=
  ["and", "or", "the", "with", "from", "into", "about", "across", "within",
   "for", "that", "this", "your", "will", "have", "has",
   "are", "was", "were", "to", "in", "on", "of", "by", "as", "at", "an",
   "job", "role", "responsibilities", "requirements", "skills", "experience",
   "should", "must", "would", "could", "may", "might", "can", "able",
   "work", "working", "strong", "excellent", "good", "knowledge",
   "understanding", "ability", "team", "individual", "company", "organization"]

/-- `TECH_CATEGORIES`, in dictionary insertion order. -/
def TECH_CATEGORIES : List (String × List String) :=
  [("programming", ["python", "java", "javascript", "c++", "c#", "ruby", "go", "rust", "swift", "kotlin"]),
   ("web", ["html", "css", "react", "angular", "vue", "django", "flask", "node", "express", "spring"]),
   ("database", ["sql", "mysql", "postgresql", "mongodb", "redis", "oracle", "nosql"]),
   ("cloud", ["aws", "azure", "gcp", "docker", "kubernetes", "terraform", "ci/cd"]),
   ("data_science", ["machine", "learning", "ai", "pytorch", "tensorflow", "pandas", "numpy"]),
   ("tools", ["git", "jenkins", "jira", "confluence", "slack", "vs", "code", "intellij"])]

/-- `clean_text`: guard on falsy input, replace disallowed characters by
spaces, collapse whitespace, lowercase, strip. -/
def clean_text (text : String) : String :=
  if text = "" then "" else
  let step1 := text.data.map (fun c => if isKeptChar c then c else ' ')
  let step2 := collapseWS step1
  let step3 := step2.map Char.toLower
  ⟨pyStripChars pySpaceChars step3⟩

/-- The characters stripped from token ends by `word.strip` in `tokenize`:
dot, comma, dash, slash, underscore, ampersand, plus. -/
def stripTokenChars : List Char := ['.', ',', '-', '/', '_', '&', '+']

/-- `tokenize`: clean, split on whitespace, keep words of length ≥ 3 that
are not stopwords, strip punctuation from their ends, keep results of
length ≥ 2.  (The loop with `append` is written as `filterMap`.) -/
def tokenize (text : String) : List String :=
  (pySplit (clean_text text)).filterMap (fun w =>
    if 3 ≤ w.length ∧ w ∉ STOPWORDS then
      let w2 : String := ⟨pyStripChars stripTokenChars w.data⟩
      if 2 ≤ w2.length then some w2 else none
    else none)

/-- The `for category, terms in TECH_CATEGORIES.items(): if word in terms:
score *= 2; break` loop of `extract_keywords`. -/
def boostLoop (word : String) : List (String × List String) → Nat → Nat
  | [], score => score
  | (_, terms) :: rest, score =>
    if word ∈ terms then 2 * score else boostLoop word rest score

def boostScore (word : String) (count : Nat) : Nat :=
  boostLoop word TECH_CATEGORIES count

/-- First-occurrence deduplication; `collections.Counter` iterates keys in
first-insertion order. -/
def dedupFirstAux : List String → List String → List String
  | [], _ => []
  | x :: rest, seen =>
    if x ∈ seen then dedupFirstAux rest seen
    else x :: dedupFirstAux rest (x :: seen)

def dedupFirst (l : List String) : List String := dedupFirstAux l []

/-- `Counter(tokens).items()`: (token, multiplicity) pairs in
first-occurrence order. -/
def counterItems (tokens : List String) : List (String × Nat) :=
  (dedupFirst tokens).map fun w => (w, tokens.count w)

/-- The Python sort key `(-score, -count, word)` as a boolean total order on
`(word, score, count)` triples. -/
def scoreKeyLE (a b : String × Nat × Nat) : Bool :=
  decide (b.2.1 < a.2.1 ∨ (a.2.1 = b.2.1 ∧
    (b.2.2 < a.2.2 ∨ (a.2.2 = b.2.2 ∧ pyStrLE a.1 b.1 = true))))

/-- The sort order as a relation.  `list.sort(key=...)` is a stable sort;
because the key ends with the word itself and the words in the scored list
are pairwise distinct, the sorted result is the unique permutation sorted
under this (total, transitive) order, so any correct sort computes it. -/
def scoreKeyRel (a b : String × Nat × Nat) : Prop := scoreKeyLE a b = true

instance : DecidableRel scoreKeyRel := fun a b =>
  instDecidableEqBool (scoreKeyLE a b) true

/-- The dedup/truncate loop at the end of `extract_keywords`: walk the
candidates, append unseen words, stop as soon as `top_n` are collected. -/
def takeUniqueSeen : List (String × Nat × Nat) → List String → Nat → List String
  | [], acc, _ => acc.reverse
  | (w, _, _) :: rest, acc, n =>
    let acc2 := if w ∈ acc then acc else w :: acc
    if n ≤ acc2.length then acc2.reverse else takeUniqueSeen rest acc2 n

/-- `extract_keywords(job_description, top_n=30)`.  The argument is
`Option String` so that the Python call `extract_keywords(None)` is
representable; `if not job_description` is true for `None` and `""`. -/
def extract_keywords (job_description : Option String) (top_n : Nat) :
    List String :=
  match job_description with
  | none => []
  | some jd =>
    if jd = "" then [] else
    let tokens := tokenize jd
    if tokens = [] then [] else
    let freq := counterItems tokens
    let scored := freq.map (fun p => (p.1, boostScore p.1 p.2, p.2))
    let sorted := List.insertionSort scoreKeyRel scored
    takeUniqueSeen (sorted.take (top_n * 2)) [] top_n

/-- Values stored in a Python dictionary, as far as this module handles
them: strings, lists of strings, nested dictionaries, and opaque values
(identified by a tag) that `merge_keywords` never inspects. -/
inductive PyVal where
  | pstr : String → PyVal
  | pstrList : List String → PyVal
  | pdict : List (String × PyVal) → PyVal
  | popaque : Nat → PyVal
deriving BEq

abbrev PyDict := List (String × PyVal)

/-- `d[k] = v` on a dictionary: overwrite in place if the key exists
(keeping its position), else append at the end. -/
def dictSetKey : PyDict → String → PyVal → PyDict
  | [], k, v => [(k, v)]
  | (k2, v2) :: rest, k, v =>
    if k2 = k then (k, v) :: rest else (k2, v2) :: dictSetKey rest k v

def dictLookup (d : PyDict) (k : String) : Option PyVal :=
  (d.find? (fun p => p.1 == k)).map Prod.snd

def dictKeys (d : PyDict) : List String := d.map Prod.fst

/-- The category-breakdown dictionary built inside `merge_keywords`
(categories with no matching keyword are omitted; insertion order follows
`TECH_CATEGORIES`). -/
def categorize (keywords : List String) : List (String × PyVal) :=
  TECH_CATEGORIES.filterMap (fun p =>
    let category_keywords := keywords.filter (fun kw => kw ∈ p.2)
    if category_keywords = [] then none
    else some (p.1, PyVal.pstrList category_keywords))

/-- `merge_keywords(profile, keywords)` as a pure function on the
dictionary value: the contents of the returned copy. -/
def merge_keywords (profile : PyDict) (keywords : List String) : PyDict :=
  let profile_copy := dictSetKey profile "ats_keywords" (PyVal.pstrList keywords)
  dictSetKey profile_copy "ats_keyword_categories" (PyVal.pdict (categorize keywords))

/-! #### A heap of dictionary objects, for the mutation/frame property.

`profile.copy()` allocates a fresh dictionary object; the two subscript
assignments mutate only that fresh object.  The heap maps addresses to
dictionary contents. -/

structure Heap where
  store : List (Nat × PyDict)
  next : Nat

def Heap.WF (h : Heap) : Prop := ∀ p ∈ h.store, p.1 < h.next

def heapGet (h : Heap) (a : Nat) : Option PyDict :=
  (h.store.find? (fun p => p.1 == a)).map Prod.snd

def heapAlloc (h : Heap) (d : PyDict) : Nat × Heap :=
  (h.next, ⟨(h.next, d) :: h.store, h.next + 1⟩)

def heapSet (h : Heap) (a : Nat) (d : PyDict) : Heap :=
  ⟨h.store.map (fun p => if p.1 = a then (a, d) else p), h.next⟩

/-- `merge_keywords` statement by statement against the heap: read the
profile object at `a`, allocate the shallow copy, perform the two keyed
assignments on the copy, return its address.  `none` models a lookup of a
dangling address. -/
def merge_keywords_imp (h : Heap) (a : Nat) (keywords : List String) :
    Option (Nat × Heap) :=
  match heapGet h a with
  | none => none
  | some profile =>
    let alloc := heapAlloc h profile
    match heapGet alloc.2 alloc.1 with
    | none => none
    | some pc0 =>
      let h2 := heapSet alloc.2 alloc.1
        (dictSetKey pc0 "ats_keywords" (PyVal.pstrList keywords))
      match heapGet h2 alloc.1 with
      | none => none
      | some pc1 =>
        let h3 := heapSet h2 alloc.1
          (dictSetKey pc1 "ats_keyword_categories" (PyVal.pdict (categorize keywords)))
        some (alloc.1, h3)

/-! #### `keyword_match_score` -/

/-- One `experience` entry, restricted to the fields the scorer reads
(`actions`, `outcomes`); a missing or non-list field is the empty list,
matching the `.get` default and the `isinstance` guard. -/
structure Experience where
  actions : List String
  outcomes : List String

/-- One `projects` entry, restricted to the `technologies` field. -/
structure Project where
  technologies : List String

/-- A profile, restricted to the fields `keyword_match_score` reads. -/
structure Profile where
  skills_technical : List String
  experience : List Experience
  projects : List Project

/-- The profile token set: technical skills, every experience entry's
actions and outcomes, every project's technologies, each joined with
spaces, tokenized, and unioned (membership in the concatenation models
membership in the Python set). -/
def profileTokens (p : Profile) : List String :=
  tokenize (String.intercalate " " p.skills_technical)
  ++ (p.experience.map (fun e =>
        tokenize (String.intercalate " " e.actions)
        ++ tokenize (String.intercalate " " e.outcomes))).flatten
  ++ (p.projects.map (fun pr =>
        tokenize (String.intercalate " " pr.technologies))).flatten

/-- The `is_technical` check: the loop over `TECH_CATEGORIES.values()` with
a break is membership in some category list. -/
def isTechTerm (w : String) : Bool := TECH_CATEGORIES.any (fun p => w ∈ p.2)

/-- Python `round(x, 1)` on the exact rational value of `x`. -/
def roundTo1 (q : ℚ) : ℚ := ((round (q * 10) : ℤ) : ℚ) / 10

/-- `keyword_match_score(profile, job_description)`. -/
def keyword_match_score (profile : Profile) (job_description : String) : ℚ :=
  if job_description = "" then 0 else
  let jd_keywords := dedupFirst (extract_keywords (some job_description) 30)
  if jd_keywords = [] then 0 else
  let profile_skills := profileTokens profile
  let overlap := jd_keywords.filter (fun w => w ∈ profile_skills)
  let total_score : Nat :=
    (jd_keywords.map (fun keyword =>
      if keyword ∈ overlap then (if isTechTerm keyword then 2 else 1) else 0)).sum
  let max_score : Nat := jd_keywords.length * 2
  if max_score = 0 then 0
  else roundTo1 (((total_score : ℚ) / (max_score : ℚ)) * 100)

/-! #### `generate_ats_tips` and the module-level alias -/

def ACTION_VERBS : List String :=
  ["developed", "implemented", "created", "managed", "led", "improved",
   "increased", "decreased", "optimized", "designed", "built"]

def METRIC_INDICATORS : List String :=
  ["%", "percent", "increased", "decreased", "reduced", "improved"]

/-- Body of `generate_ats_tips`, parameterized by the function that the
bare name `extract_keywords` resolves to.  `profile_repr` stands for
`str(profile)` (the textual repr of the full dictionary, which lies outside
the projected `Profile` record).  Set-typed intermediate values are
modelled as deduplicated lists; the order of `missing` fixes one of the
unspecified CPython set iteration orders. -/
def generate_ats_tips_body (f : Option String → Nat → List String)
    (profile : Profile) (profile_repr : String) (jd : Option String) :
    List String :=
  let jd_keywords := dedupFirst (f jd 30)
  let profile_keywords :=
    dedupFirst (tokenize (String.intercalate " " profile.skills_technical))
  let missing := jd_keywords.filter (fun w => w ∉ profile_keywords)
  let tips1 :=
    if missing ≠ [] then
      ["**Add these keywords to your resume:** " ++
        String.intercalate ", " (missing.take 10)]
    else []
  let found_verbs := profile_keywords.filter (fun w => w ∈ ACTION_VERBS)
  let tips2 :=
    if found_verbs.length < 5 then
      ["**Use more action verbs** like developed, implemented, led to start bullet points"]
    else []
  let profile_text := pyLower profile_repr
  let has_metrics := METRIC_INDICATORS.any (fun ind => pyContainsSub profile_text ind)
  let tips3 :=
    if !has_metrics then
      ["**Add quantifiable metrics** to show impact (e.g., increased efficiency by 20%)"]
    else []
  tips1 ++ tips2 ++ tips3

/-- The module-level bindings executed at the bottom of `ats.py` whose
values have the type of `extract_keywords` (the `merge_keywords` and
`keyword_match_score` aliases have different types and cannot shadow it). -/
def moduleGlobals : List (String × (Option String → Nat → List String)) :=
  [("extract_keywords", fun jd n => extract_keywords jd n)]

/-- Resolution of a bare name in the module's global namespace. -/
def lookupGlobal (nm : String) : Option (Option String → Nat → List String) :=
  (moduleGlobals.find? (fun p => p.1 == nm)).map Prod.snd

/-- `generate_ats_tips`: the bare name `extract_keywords` is resolved in
the module globals at call time; an absent binding would raise `NameError`,
modelled as `none`. -/
def generate_ats_tips (profile : Profile) (profile_repr : String)
    (jd : Option String) : Option (List String) :=
  match lookupGlobal "extract_keywords" with
  | none => none
  | some f => some (generate_ats_tips_body f profile profile_repr jd)

/-- The same computation written with the class-qualified
`ATSExtractor.extract_keywords`, as used elsewhere in the file. -/
def generate_ats_tips_qualified (profile : Profile) (profile_repr : String)
    (jd : Option String) : List String :=
  generate_ats_tips_body (fun jd2 n => extract_keywords jd2 n)
    profile profile_repr jd

/-- Specification-side shorthand: the raw frequency of `w` among the tokens
of `jd`. -/
def kwCount (jd : String) (w : String) : Nat := (tokenize jd).count w

/-- Specification-side shorthand: the boosted score of `w` for `jd`. -/
def kwScore (jd : String) (w : String) : Nat := boostScore w (kwCount jd w)

/-- The scored `(word, boosted score, raw count)` triples built inside
`extract_keywords`. -/
def scoredTriples (jd : String) : List (String × Nat × Nat) :=
  (counterItems (tokenize jd)).map (fun p => (p.1, boostScore p.1 p.2, p.2))

/-- The scored triples after the sort. -/
def sortedTriples (jd : String) : List (String × Nat × Nat) :=
  List.insertionSort scoreKeyRel (scoredTriples jd)

end ATSExtractor

/-! ### `src/utils/Utills/llm.py` — class LLMGenerator and `generate_text` -/

namespace LLM

/-- `data["experience_item"]` as read by the `bullets` branch. -/
structure ExpItem where
  title : Option String
  company : Option String
  actions : List String
  outcomes : List String

/-- A `projects` entry as read by `generate_cover_letter`. -/
structure LLMProject where
  name : Option String
deriving DecidableEq

/-- The `data` mapping passed to `generate_text`, projected to the fields
the three generators read.  `none` models an absent key; list fields model
`.get(key, [])`. -/
structure GenData where
  name : Option String
  targets_role : Option String
  targets_industry : Option String
  targets_company : Option String
  skills_technical : List String
  achievements : List String
  tone : Option String
  length_pref : Option String
  projects : List LLMProject
  experience_item : Option ExpItem
  ats_keywords : List String

/-- The outcome of one `requests.post` call: a 200 response whose parsed
`choices[0].message.content` is the carried string, a non-200 status code,
or a raised exception (timeout, connection error, ...) with its message. -/
inductive ApiOutcome where
  | success : String → ApiOutcome
  | httpError : Nat → ApiOutcome
  | exc : String → ApiOutcome

/-- The generator's configuration (`LLM_API_URL` / `LLM_API_TOKEN` after
defaulting in `__init__`; the default token is `""`). -/
structure LLMConfig where
  api_url : String
  api_token : String

/-- `str.strip()` with no argument. -/
def pyStrip (s : String) : String := ⟨pyStripChars pySpaceChars s.data⟩

/-- `_call_llm_api`: dev-mode guard, then the network call with every
exception caught and converted to a string. -/
def call_llm_api (cfg : LLMConfig) (outcome : ApiOutcome) (prompt : String) :
    String :=
  if cfg.api_token = "" || pyContainsSub (pyLower cfg.api_url) "dev" then
    "[LLM RESPONSE] " ++ prompt.take 200 ++ "..."
  else
    match outcome with
    | .success content => content
    | .httpError code => "Error: " ++ toString code
    | .exc msg => "API Error: " ++ msg

/-- `result.startswith(("Error:", "API Error:", "[LLM RESPONSE]"))`. -/
def isFallbackMarker (result : String) : Bool :=
  pyStartsWith result "Error:" || pyStartsWith result "API Error:" ||
  pyStartsWith result "[LLM RESPONSE]"

/-- `_get_length_instruction`. -/
def get_length_instruction (length : String) : String :=
  let lengths := [("short", "2-3 sentences, very concise"),
                  ("medium", "3-4 sentences, balanced detail"),
                  ("long", "4-5 sentences, comprehensive")]
  ((lengths.find? (fun p => p.1 == pyLower length)).map Prod.snd).getD
    "3-4 sentences, balanced detail"

/-- The `summary` fallback template, `.format`ted. -/
def fallback_summary (role experience industry skills achievements : String) :
    String :=
  "Results-driven " ++ role ++ " with " ++ experience ++
  " years of experience in " ++ industry ++ ". \n            Skilled in " ++
  skills ++ ". Proven track record of " ++ achievements ++
  ". Seeking to leverage expertise \n            in a challenging " ++ role ++
  " position."

/-- The `bullets` fallback template after
`format(technology="relevant technology")` — a constant string. -/
def fallback_bullets : String :=
  "• Developed and implemented relevant technology solutions improving efficiency by 25%\n            • Led cross-functional teams to deliver projects 15% ahead of schedule\n            • Optimized processes resulting in 30% cost reduction\n            • Collaborated with stakeholders to define requirements and deliverables"

/-- The `cover_letter` fallback template, `.format`ted. -/
def fallback_cover_letter (role industry skills achievements nm : String) :
    String :=
  "Dear Hiring Manager,\n\n            I am writing to express my interest in the " ++
  role ++ " position. With my background in " ++ industry ++
  " \n            and expertise in " ++ skills ++
  ", I am confident in my ability to contribute to your team.\n\n            My experience includes " ++
  achievements ++
  ", which align well with your requirements.\n\n            I look forward to discussing how I can add value to your organization.\n\n            Sincerely,\n            " ++
  nm

/-- The f-string prompt built by `generate_summary`. -/
def summary_prompt (tone role industry skills_text achievements_text
    length : String) : String :=
  "Write a " ++ tone ++ " professional summary for a " ++ role ++ " in the " ++
  industry ++ " industry.\n        \n        Key Information:\n        - Role: " ++
  role ++ "\n        - Industry: " ++ industry ++ "\n        - Top Skills: " ++
  skills_text ++ "\n        - Key Achievements: " ++ achievements_text ++
  "\n        - Desired Tone: " ++ tone ++ "\n        - Length: " ++ length ++
  "\n        \n        Requirements:\n        - " ++
  get_length_instruction length ++
  "\n        - Include measurable results\n        - Use industry-relevant terminology\n        - Avoid clichés and generic phrases\n        - Tailor to " ++
  role ++ " position\n        \n        Professional Summary:"

def skills_text_summary (d : GenData) : String :=
  if d.skills_technical ≠ [] then
    String.intercalate ", " (d.skills_technical.take 5)
  else "relevant technical skills"

def achievements_text_summary (d : GenData) : String :=
  if d.achievements ≠ [] then String.intercalate ", " (d.achievements.take 3)
  else "achieving measurable results"

/-- The fallback string that `generate_summary` substitutes on failure
(template formatted with `experience="3+"`). -/
def summary_fallback_of (d : GenData) : String :=
  fallback_summary (d.targets_role.getD "professional") "3+"
    (d.targets_industry.getD "relevant industry")
    (skills_text_summary d) (achievements_text_summary d)

/-- `generate_summary`. -/
def generate_summary (cfg : LLMConfig) (outcome : ApiOutcome)
    (profile : GenData) : String :=
  let role := profile.targets_role.getD "professional"
  let industry := profile.targets_industry.getD "relevant industry"
  let tone := profile.tone.getD "professional"
  let length := profile.length_pref.getD "medium"
  let prompt := summary_prompt tone role industry (skills_text_summary profile)
    (achievements_text_summary profile) length
  let result := call_llm_api cfg outcome prompt
  if isFallbackMarker result then summary_fallback_of profile
  else pyStrip result

/-- The f-string prompt built by `generate_experience_bullets`. -/
def bullets_prompt (title company actions_text outcomes_text
    keywords_text : String) : String :=
  "Generate 3-5 impactful bullet points for a resume experience section.\n        \n        Position: " ++
  title ++ " at " ++ company ++ "\n        Key Responsibilities: " ++
  actions_text ++ "\n        Achievements/Outcomes: " ++ outcomes_text ++
  "\n        \n        Requirements:" ++ keywords_text ++
  "\n        - Use STAR format (Situation, Task, Action, Result)\n        - Start each bullet with strong action verbs\n        - Include quantifiable metrics where possible\n        - Keep each bullet concise (1-2 lines)\n        - Show progression and impact\n        - Use industry-standard terminology\n        \n        Bullet Points:"

/-- `generate_experience_bullets`. -/
def generate_experience_bullets (cfg : LLMConfig) (outcome : ApiOutcome)
    (experience_item : ExpItem) (ats_keywords : List String) : String :=
  let title := experience_item.title.getD "Professional"
  let company := experience_item.company.getD "Company"
  let actions_text :=
    if experience_item.actions ≠ [] then
      String.intercalate "; " (experience_item.actions.take 3)
    else "various responsibilities"
  let outcomes_text :=
    if experience_item.outcomes ≠ [] then
      String.intercalate "; " (experience_item.outcomes.take 2)
    else "positive results"
  let keywords_text :=
    if ats_keywords ≠ [] then
      " Naturally include these keywords: " ++
      String.intercalate ", " (ats_keywords.take 5) ++ "."
    else ""
  let prompt := bullets_prompt title company actions_text outcomes_text
    keywords_text
  let result := call_llm_api cfg outcome prompt
  if isFallbackMarker result then fallback_bullets
  else pyStrip result

def skills_text_cover (d : GenData) : String :=
  if d.skills_technical ≠ [] then
    String.intercalate ", " (d.skills_technical.take 5)
  else "relevant skills"

def achievements_text_cover (d : GenData) : String :=
  if d.achievements ≠ [] then String.intercalate "; " (d.achievements.take 3)
  else "notable accomplishments"

def projects_text_cover (d : GenData) : String :=
  if d.projects ≠ [] then
    String.intercalate " and "
      (((d.projects.take 2).map (fun p => p.name.getD "")).filter
        (fun s => s ≠ ""))
  else "various projects"

/-- The fallback string that `generate_cover_letter` substitutes on
failure. -/
def cover_letter_fallback_of (d : GenData) : String :=
  fallback_cover_letter (d.targets_role.getD "the position")
    (d.targets_industry.getD "the industry") (skills_text_cover d)
    (achievements_text_cover d) (d.name.getD "Candidate")

/-- The f-string prompt built by `generate_cover_letter`. -/
def cover_letter_prompt (nm role company skills_text achievements_text
    projects_text : String) : String :=
  "Write a professional cover letter for a job application.\n        \n        Applicant: " ++
  nm ++ "\n        Target Position: " ++ role ++ " at " ++ company ++
  "\n        Key Skills: " ++ skills_text ++
  "\n        Major Achievements: " ++ achievements_text ++
  "\n        Relevant Projects: " ++ projects_text ++
  "\n        \n        Requirements:\n        - 300-400 words\n        - Professional and enthusiastic tone\n        - Three paragraphs: Introduction, Qualifications, Closing\n        - Tailor to " ++
  role ++
  " position\n        - Mention specific skills and achievements\n        - Include a call to action\n        - Avoid generic phrases\n        - Show passion for the industry\n        \n        Cover Letter:"

/-- `generate_cover_letter`. -/
def generate_cover_letter (cfg : LLMConfig) (outcome : ApiOutcome)
    (profile : GenData) : String :=
  let nm := profile.name.getD "Candidate"
  let role := profile.targets_role.getD "the position"
  let company := profile.targets_company.getD "your organization"
  let prompt := cover_letter_prompt nm role company
    (skills_text_cover profile) (achievements_text_cover profile)
    (projects_text_cover profile)
  let result := call_llm_api cfg outcome prompt
  if isFallbackMarker result then cover_letter_fallback_of profile
  else pyStrip result

/-- `generate_text(kind, data)`: string-keyed dispatch; unknown kinds
return `""`. -/
def generate_text (cfg : LLMConfig) (outcome : ApiOutcome) (kind : String)
    (data : GenData) : String :=
  if kind = "summary" then generate_summary cfg outcome data
  else if kind = "bullets" then
    let exp_item := data.experience_item.getD ⟨none, none, [], []⟩
    generate_experience_bullets cfg outcome exp_item data.ats_keywords
  else if kind = "cover_letter" then generate_cover_letter cfg outcome data
  else ""

/-- The deterministic local fallback string for each of the three defined
kinds. -/
def fallbackFor (kind : String) (data : GenData) : String :=
  if kind = "summary" then summary_fallback_of data
  else if kind = "bullets" then fallback_bullets
  else if kind = "cover_letter" then cover_letter_fallback_of data
  else ""

end LLM

/-! ### Lemmas about the embedding -/

namespace ATSExtractor

theorem boostLoop_eq_ite (w : String) (l : List (String × List String))
    (s : Nat) :
    boostLoop w l s = if l.any (fun p => w ∈ p.2) then 2 * s else s := by
  induction l with
  | nil => simp [boostLoop]
  | cons hd tl ih =>
    rcases hd with ⟨cat, terms⟩
    by_cases h : w ∈ terms
    · simp [boostLoop, h]
    · simp only [boostLoop, if_neg h, ih, List.any_cons,
        decide_eq_false h, Bool.false_or]

theorem mem_dedupFirstAux (x : String) :
    ∀ (l seen : List String),
      x ∈ dedupFirstAux l seen ↔ x ∈ l ∧ x ∉ seen := by
  intro l
  induction l with
  | nil => intro seen; simp [dedupFirstAux]
  | cons hd tl ih =>
    intro seen
    by_cases h : hd ∈ seen
    · rw [show dedupFirstAux (hd :: tl) seen = dedupFirstAux tl seen by
        simp [dedupFirstAux, h], ih]
      constructor
      · rintro ⟨h1, h2⟩
        exact ⟨List.mem_cons_of_mem _ h1, h2⟩
      · rintro ⟨h1, h2⟩
        rcases List.mem_cons.mp h1 with rfl | h1
        · exact absurd h h2
        · exact ⟨h1, h2⟩
    · rw [show dedupFirstAux (hd :: tl) seen = hd :: dedupFirstAux tl (hd :: seen) by
        simp [dedupFirstAux, h]]
      constructor
      · intro hx
        rcases List.mem_cons.mp hx with rfl | hx
        · exact ⟨List.mem_cons_self _ _, h⟩
        · obtain ⟨h1, h2⟩ := (ih _).mp hx
          exact ⟨List.mem_cons_of_mem _ h1,
            fun hs => h2 (List.mem_cons_of_mem _ hs)⟩
      · rintro ⟨h1, h2⟩
        rcases List.mem_cons.mp h1 with rfl | h1
        · exact List.mem_cons_self _ _
        · by_cases hx : x = hd
          · subst hx; exact List.mem_cons_self _ _
          · refine List.mem_cons_of_mem _ ((ih _).mpr ⟨h1, ?_⟩)
            intro hs
            rcases List.mem_cons.mp hs with h3 | h3
            · exact hx h3
            · exact h2 h3

theorem mem_dedupFirst (x : String) (l : List String) :
    x ∈ dedupFirst l ↔ x ∈ l := by
  simp [dedupFirst, mem_dedupFirstAux]

theorem nodup_dedupFirstAux :
    ∀ (l seen : List String), (dedupFirstAux l seen).Nodup := by
  intro l
  induction l with
  | nil => intro seen; simp [dedupFirstAux]
  | cons hd tl ih =>
    intro seen
    by_cases h : hd ∈ seen
    · rw [show dedupFirstAux (hd :: tl) seen = dedupFirstAux tl seen by
        simp [dedupFirstAux, h]]
      exact ih seen
    · rw [show dedupFirstAux (hd :: tl) seen = hd :: dedupFirstAux tl (hd :: seen) by
        simp [dedupFirstAux, h]]
      refine List.nodup_cons.mpr ⟨?_, ih (hd :: seen)⟩
      intro hmem
      exact ((mem_dedupFirstAux hd tl (hd :: seen)).mp hmem).2
        (List.mem_cons_self hd seen)

theorem nodup_dedupFirst (l : List String) : (dedupFirst l).Nodup :=
  nodup_dedupFirstAux l []

theorem dictLookup_cons (p : String × PyVal) (d : PyDict) (k : String) :
    dictLookup (p :: d) k = if p.1 = k then some p.2 else dictLookup d k := by
  by_cases h : p.1 = k
  · simp [dictLookup, List.find?_cons_of_pos, h]
  · simp [dictLookup, List.find?_cons_of_neg, h]

theorem dictLookup_setKey_same (d : PyDict) (k : String) (v : PyVal) :
    dictLookup (dictSetKey d k v) k = some v := by
  induction d with
  | nil => simp [dictSetKey, dictLookup_cons]
  | cons hd tl ih =>
    by_cases h : hd.1 = k
    · simp [dictSetKey, if_pos h, dictLookup_cons]
    · simp only [dictSetKey, if_neg h]
      rw [dictLookup_cons, if_neg h]
      exact ih

theorem dictLookup_setKey_other (d : PyDict) (k k2 : String) (v : PyVal)
    (h : k2 ≠ k) :
    dictLookup (dictSetKey d k v) k2 = dictLookup d k2 := by
  induction d with
  | nil =>
    simp [dictSetKey, dictLookup_cons, Ne.symm h, dictLookup]
  | cons hd tl ih =>
    rcases hd with ⟨k3, v3⟩
    by_cases h1 : k3 = k
    · subst h1
      rw [show dictSetKey ((k3, v3) :: tl) k3 v = (k3, v) :: tl by
        simp [dictSetKey]]
      rw [dictLookup_cons, dictLookup_cons]
      rw [if_neg (fun hk => h hk.symm), if_neg (fun hk => h hk.symm)]
    · rw [show dictSetKey ((k3, v3) :: tl) k v = (k3, v3) :: dictSetKey tl k v by
        simp [dictSetKey, h1]]
      rw [dictLookup_cons, dictLookup_cons]
      by_cases h2 : k3 = k2
      · simp [h2]
      · rw [if_neg h2, if_neg h2]
        exact ih

end ATSExtractor

/-! ### C9, C10, C4, C7, C3 -/

/-- C9: `extract_keywords(None)` and `extract_keywords("")` both return the
empty list, and the function is total: on every input it returns some list,
possibly empty (the embedding is a total function; no exception path
exists in the source either — every branch returns). -/
theorem C9_extract_keywords_empty_and_total :
    (∀ n, ATSExtractor.extract_keywords none n = []) ∧
    (∀ n, ATSExtractor.extract_keywords (some "") n = []) ∧
    (∀ jd n, ∃ r, ATSExtractor.extract_keywords jd n = r) :=
  ⟨fun _ => rfl, fun _ => rfl, fun _ _ => ⟨_, rfl⟩⟩

/-- C10: `generate_text` with a kind outside the three defined ones returns
`""` for every data mapping, configuration and network outcome. -/
theorem C10_generate_text_unknown_kind (kind : String)
    (h : kind ∉ ["summary", "bullets", "cover_letter"]) :
    ∀ (cfg : LLM.LLMConfig) (outcome : LLM.ApiOutcome) (data : LLM.GenData),
      LLM.generate_text cfg outcome kind data = "" := by
  intro cfg outcome data
  simp only [List.mem_cons, List.not_mem_nil, or_false, not_or] at h
  simp [LLM.generate_text, h.1, h.2.1, h.2.2]

/-- Witness for C10 at the concrete kind `"other"`. -/
theorem C10_witness :
    "other" ∉ ["summary", "bullets", "cover_letter"] ∧
    LLM.generate_text ⟨"https://api.openai.com/v1/chat/completions", ""⟩
      (LLM.ApiOutcome.success "ok") "other"
      ⟨none, none, none, none, [], [], none, none, [], none, []⟩ = "" :=
  ⟨by decide,
   C10_generate_text_unknown_kind "other" (by decide)
     ⟨"https://api.openai.com/v1/chat/completions", ""⟩
     (LLM.ApiOutcome.success "ok")
     ⟨none, none, none, none, [], [], none, none, [], none, []⟩⟩

/-- C4: the boosted score equals the raw count when the token is in no
technical category list, exactly twice the raw count when it is in at
least one (the first matching category breaks the loop), and it never
exceeds twice the raw count. -/
theorem C4_boost_score (w : String) (c : Nat) :
    ATSExtractor.boostScore w c =
      (if ATSExtractor.isTechTerm w then 2 * c else c) ∧
    ATSExtractor.boostScore w c ≤ 2 * c := by
  have h := ATSExtractor.boostLoop_eq_ite w ATSExtractor.TECH_CATEGORIES c
  constructor
  · simpa [ATSExtractor.boostScore, ATSExtractor.isTechTerm] using h
  · rw [ATSExtractor.boostScore, h]
    split <;> omega

/-- C7: merging twice with the same keyword list leaves the
`ats_keywords` field identical to a single merge; its value is exactly the
keyword list both times. -/
theorem C7_merge_keywords_idempotent (profile : ATSExtractor.PyDict)
    (kws : List String) :
    ATSExtractor.dictLookup
        (ATSExtractor.merge_keywords
          (ATSExtractor.merge_keywords profile kws) kws) "ats_keywords" =
      ATSExtractor.dictLookup
        (ATSExtractor.merge_keywords profile kws) "ats_keywords" ∧
    ATSExtractor.dictLookup
        (ATSExtractor.merge_keywords profile kws) "ats_keywords" =
      some (ATSExtractor.PyVal.pstrList kws) := by
  constructor
  · rw [ATSExtractor.merge_keywords, ATSExtractor.merge_keywords]
    rw [ATSExtractor.dictLookup_setKey_other _ "ats_keyword_categories"
      "ats_keywords" _ (by decide)]
    rw [ATSExtractor.dictLookup_setKey_other _ "ats_keyword_categories"
      "ats_keywords" _ (by decide)]
    rw [ATSExtractor.dictLookup_setKey_same, ATSExtractor.dictLookup_setKey_same]
  · rw [ATSExtractor.merge_keywords]
    rw [ATSExtractor.dictLookup_setKey_other _ "ats_keyword_categories"
      "ats_keywords" _ (by decide)]
    rw [ATSExtractor.dictLookup_setKey_same]

/-- C3: the bare name `extract_keywords` used inside `generate_ats_tips`
resolves in the module globals to the alias of
`ATSExtractor.extract_keywords` created at the bottom of the file, the
call therefore succeeds on every input, and the set of job keywords it
computes is exactly the keyword set of the class-qualified path. -/
theorem C3_generate_ats_tips_alias :
    ATSExtractor.lookupGlobal "extract_keywords" =
      some (fun jd n => ATSExtractor.extract_keywords jd n) ∧
    (∀ (p : ATSExtractor.Profile) (r : String) (jd : Option String),
      ATSExtractor.generate_ats_tips p r jd =
        some (ATSExtractor.generate_ats_tips_qualified p r jd)) ∧
    (∀ (jd : Option String) (w : String),
      w ∈ ATSExtractor.dedupFirst (ATSExtractor.extract_keywords jd 30) ↔
        w ∈ ATSExtractor.extract_keywords jd 30) :=
  ⟨rfl, fun _ _ _ => rfl, fun jd w => ATSExtractor.mem_dedupFirst w _⟩

/-! ### C5: empty-keyword short-circuit in the scorer -/

/-- C5: the scorer returns 0.0 on the empty job description; whenever the
extracted keyword set is empty it returns 0.0 before the final division;
and on the path that divides, the divisor `2 × |job keywords|` is
positive. -/
theorem C5_match_score_empty_short_circuit :
    (∀ p : ATSExtractor.Profile, ATSExtractor.keyword_match_score p "" = 0) ∧
    (∀ (p : ATSExtractor.Profile) (jd : String),
      ATSExtractor.extract_keywords (some jd) 30 = [] →
      ATSExtractor.keyword_match_score p jd = 0) ∧
    (∀ jd : String,
      ATSExtractor.dedupFirst (ATSExtractor.extract_keywords (some jd) 30) ≠ [] →
      0 < (ATSExtractor.dedupFirst
            (ATSExtractor.extract_keywords (some jd) 30)).length * 2) := by
  refine ⟨fun p => by simp [ATSExtractor.keyword_match_score], ?_, ?_⟩
  · intro p jd h
    by_cases hjd : jd = ""
    · simp [ATSExtractor.keyword_match_score, hjd]
    · simp [ATSExtractor.keyword_match_score, hjd, h, ATSExtractor.dedupFirst,
        ATSExtractor.dedupFirstAux]
  · intro jd h
    have := List.length_pos.mpr h
    omega

/-- Witness for C5 at concrete inputs: `"a b"` yields no keywords (both
words are shorter than three characters), `"python"` yields a non-empty
keyword set. -/
theorem C5_witness :
    ATSExtractor.extract_keywords (some "a b") 30 = [] ∧
    ATSExtractor.keyword_match_score ⟨[], [], []⟩ "a b" = 0 ∧
    ATSExtractor.dedupFirst (ATSExtractor.extract_keywords (some "python") 30) ≠ [] ∧
    0 < (ATSExtractor.dedupFirst
          (ATSExtractor.extract_keywords (some "python") 30)).length * 2 :=
  ⟨by decide,
   C5_match_score_empty_short_circuit.2.1 ⟨[], [], []⟩ "a b" (by decide),
   by decide,
   C5_match_score_empty_short_circuit.2.2 "python" (by decide)⟩

/-! ### C8: fallback paths of the text generator -/

theorem pyStartsWith_append (p q : String) : pyStartsWith (p ++ q) p = true := by
  simp only [pyStartsWith, String.data_append, decide_eq_true_eq]
  exact List.prefix_append _ _

theorem pyStartsWith_of_split (s p r : String) (hs : s = p ++ r) :
    pyStartsWith s p = true := by
  rw [hs]; exact pyStartsWith_append p r

theorem isFallbackMarker_llmResponse (s : String) :
    LLM.isFallbackMarker ("[LLM RESPONSE] " ++ s) = true := by
  have h : ("[LLM RESPONSE] " ++ s : String) = "[LLM RESPONSE]" ++ (" " ++ s) := by
    rw [← String.append_assoc]
    congr 1
  simp [LLM.isFallbackMarker, pyStartsWith_of_split _ "[LLM RESPONSE]" _ h]

theorem isFallbackMarker_error (s : String) :
    LLM.isFallbackMarker ("Error: " ++ s) = true := by
  have h : ("Error: " ++ s : String) = "Error:" ++ (" " ++ s) := by
    rw [← String.append_assoc]
    congr 1
  simp [LLM.isFallbackMarker, pyStartsWith_of_split _ "Error:" _ h]

theorem isFallbackMarker_apiError (s : String) :
    LLM.isFallbackMarker ("API Error: " ++ s) = true := by
  have h : ("API Error: " ++ s : String) = "API Error:" ++ (" " ++ s) := by
    rw [← String.append_assoc]
    congr 1
  simp [LLM.isFallbackMarker, pyStartsWith_of_split _ "API Error:" _ h]

/-- Under an absent token or a `dev`-marked URL, `_call_llm_api` returns
the local echo string regardless of the network outcome. -/
theorem call_llm_api_guard (cfg : LLM.LLMConfig) (outcome : LLM.ApiOutcome)
    (prompt : String)
    (h : cfg.api_token = "" ∨ pyContainsSub (pyLower cfg.api_url) "dev" = true) :
    LLM.call_llm_api cfg outcome prompt =
      "[LLM RESPONSE] " ++ prompt.take 200 ++ "..." := by
  have hc : (decide (cfg.api_token = "") ||
      pyContainsSub (pyLower cfg.api_url) "dev") = true := by
    rcases h with h | h <;> simp [h]
  simp [LLM.call_llm_api, hc]

/-- Every `_call_llm_api` result under the guard satisfies the fallback
marker test. -/
theorem marker_of_guard (cfg : LLM.LLMConfig) (outcome : LLM.ApiOutcome)
    (h : cfg.api_token = "" ∨ pyContainsSub (pyLower cfg.api_url) "dev" = true) :
    ∀ prompt, LLM.isFallbackMarker (LLM.call_llm_api cfg outcome prompt) = true := by
  intro prompt
  rw [call_llm_api_guard cfg outcome prompt h, String.append_assoc]
  exact isFallbackMarker_llmResponse _

/-- Every `_call_llm_api` result on a non-200 response satisfies the
fallback marker test. -/
theorem marker_of_httpError (cfg : LLM.LLMConfig) (code : Nat) :
    ∀ prompt,
      LLM.isFallbackMarker
        (LLM.call_llm_api cfg (LLM.ApiOutcome.httpError code) prompt) = true := by
  intro prompt
  rw [LLM.call_llm_api]
  split
  · rw [String.append_assoc]
    exact isFallbackMarker_llmResponse _
  · exact isFallbackMarker_error _

/-- Every `_call_llm_api` result on a raised exception satisfies the
fallback marker test. -/
theorem marker_of_exc (cfg : LLM.LLMConfig) (msg : String) :
    ∀ prompt,
      LLM.isFallbackMarker
        (LLM.call_llm_api cfg (LLM.ApiOutcome.exc msg) prompt) = true := by
  intro prompt
  rw [LLM.call_llm_api]
  split
  · rw [String.append_assoc]
    exact isFallbackMarker_llmResponse _
  · exact isFallbackMarker_apiError _

/-- When every call result trips the marker test, `generate_text` on a
defined kind returns that kind's deterministic fallback. -/
theorem generate_text_fallback (cfg : LLM.LLMConfig) (outcome : LLM.ApiOutcome)
    (kind : String) (data : LLM.GenData)
    (hkind : kind ∈ ["summary", "bullets", "cover_letter"])
    (hmarker : ∀ prompt,
      LLM.isFallbackMarker (LLM.call_llm_api cfg outcome prompt) = true) :
    LLM.generate_text cfg outcome kind data = LLM.fallbackFor kind data := by
  rcases List.mem_cons.mp hkind with rfl | hkind
  · simp [LLM.generate_text, LLM.generate_summary, LLM.fallbackFor, hmarker]
  rcases List.mem_cons.mp hkind with rfl | hkind
  · simp [LLM.generate_text, LLM.generate_experience_bullets, LLM.fallbackFor,
      hmarker]
  rcases List.mem_cons.mp hkind with rfl | hkind
  · simp [LLM.generate_text, LLM.generate_cover_letter, LLM.fallbackFor, hmarker]
  · exact absurd hkind (List.not_mem_nil _)

/-- C8: for the three defined kinds, an absent token or a `dev`-marked URL
forces the deterministic local fallback regardless of the network outcome,
and a remote failure (non-200 status or raised exception) is never
propagated: the call still returns the kind's fallback string. -/
theorem C8_generate_text_fallback_paths (cfg : LLM.LLMConfig)
    (data : LLM.GenData) (kind : String)
    (hkind : kind ∈ ["summary", "bullets", "cover_letter"]) :
    ((cfg.api_token = "" ∨ pyContainsSub (pyLower cfg.api_url) "dev" = true) →
      ∀ outcome, LLM.generate_text cfg outcome kind data =
        LLM.fallbackFor kind data) ∧
    (∀ code, LLM.generate_text cfg (LLM.ApiOutcome.httpError code) kind data =
      LLM.fallbackFor kind data) ∧
    (∀ msg, LLM.generate_text cfg (LLM.ApiOutcome.exc msg) kind data =
      LLM.fallbackFor kind data) :=
  ⟨fun h outcome =>
    generate_text_fallback cfg outcome kind data hkind (marker_of_guard cfg outcome h),
   fun code =>
    generate_text_fallback cfg _ kind data hkind (marker_of_httpError cfg code),
   fun msg =>
    generate_text_fallback cfg _ kind data hkind (marker_of_exc cfg msg)⟩

/-- Witness for C8: a `dev`-marked URL (case-insensitive) with a non-empty
token, kind `summary`, a successful network outcome — the result is still
the local fallback. -/
theorem C8_witness :
    ("summary" : String) ∈ ["summary", "bullets", "cover_letter"] ∧
    pyContainsSub (pyLower "https://DEV.example.com") "dev" = true ∧
    LLM.generate_text ⟨"https://DEV.example.com", "tok"⟩
        (LLM.ApiOutcome.success "ok") "summary"
        ⟨none, some "engineer", none, none, [], [], none, none, [], none, []⟩ =
      LLM.fallbackFor "summary"
        ⟨none, some "engineer", none, none, [], [], none, none, [], none, []⟩ :=
  ⟨by decide, by decide,
   (C8_generate_text_fallback_paths ⟨"https://DEV.example.com", "tok"⟩
      ⟨none, some "engineer", none, none, [], [], none, none, [], none, []⟩
      "summary" (by decide)).1 (Or.inr (by decide))
      (LLM.ApiOutcome.success "ok")⟩

/-! ### C6: merge_keywords does not mutate its input -/

namespace ATSExtractor

theorem heapGet_alloc_same (h : Heap) (d : PyDict) :
    heapGet (heapAlloc h d).2 (heapAlloc h d).1 = some d := by
  simp [heapAlloc, heapGet, List.find?_cons_of_pos]

theorem heapGet_alloc_other (h : Heap) (d : PyDict) (a : Nat)
    (hne : a ≠ h.next) :
    heapGet (heapAlloc h d).2 a = heapGet h a := by
  have : ((h.next, d).1 == a) = false := by
    simp [Ne.symm hne]
  simp [heapAlloc, heapGet, List.find?_cons_of_neg, this]

theorem heapGet_lt_next (h : Heap) (a : Nat) (d : PyDict) (hwf : h.WF)
    (hget : heapGet h a = some d) : a < h.next := by
  rw [heapGet] at hget
  rcases Option.map_eq_some'.mp hget with ⟨q, hfind, _⟩
  have hqa : q.1 = a := by
    have := List.find?_some hfind
    simpa using this
  have hmem := List.mem_of_find?_eq_some hfind
  have := hwf q hmem
  omega

theorem find?_setStore_same (l : List (Nat × PyDict)) (a : Nat) (d : PyDict)
    (hex : ∃ q, l.find? (fun p => p.1 == a) = some q) :
    ((l.map fun p => if p.1 = a then (a, d) else p).find? fun p => p.1 == a) =
      some (a, d) := by
  induction l with
  | nil => simp at hex
  | cons hd tl ih =>
    by_cases h : hd.1 = a
    · simp [h, List.find?_cons_of_pos]
    · have hb : (hd.1 == a) = false := by simp [h]
      rw [List.map_cons, if_neg h]
      rw [List.find?_cons_of_neg _ (by simpa using h)]
      refine ih ?_
      rcases hex with ⟨q, hq⟩
      rw [List.find?_cons_of_neg _ (by simpa using h)] at hq
      exact ⟨q, hq⟩

theorem find?_setStore_other (l : List (Nat × PyDict)) (a b : Nat)
    (d : PyDict) (hne : b ≠ a) :
    ((l.map fun p => if p.1 = a then (a, d) else p).find? fun p => p.1 == b) =
      l.find? fun p => p.1 == b := by
  induction l with
  | nil => simp
  | cons hd tl ih =>
    by_cases h : hd.1 = a
    · rw [List.map_cons, if_pos h]
      rw [List.find?_cons_of_neg _ (by simpa using Ne.symm hne)]
      rw [List.find?_cons_of_neg _ (by simp [h, Ne.symm hne])]
      exact ih
    · rw [List.map_cons, if_neg h]
      by_cases h2 : hd.1 = b
      · rw [List.find?_cons_of_pos _ (by simpa using h2),
          List.find?_cons_of_pos _ (by simpa using h2)]
      · rw [List.find?_cons_of_neg _ (by simpa using h2),
          List.find?_cons_of_neg _ (by simpa using h2)]
        exact ih

theorem heapGet_set_same (h : Heap) (a : Nat) (d0 d : PyDict)
    (hget : heapGet h a = some d0) :
    heapGet (heapSet h a d) a = some d := by
  rw [heapGet] at hget
  rcases Option.map_eq_some'.mp hget with ⟨q, hfind, _⟩
  rw [heapGet, heapSet]
  rw [find?_setStore_same h.store a d ⟨q, hfind⟩]
  rfl

theorem heapGet_set_other (h : Heap) (a b : Nat) (d : PyDict)
    (hne : b ≠ a) :
    heapGet (heapSet h a d) b = heapGet h b := by
  rw [heapGet, heapSet, find?_setStore_other h.store a b d hne, heapGet]

theorem mem_dictKeys_setKey_self (d : PyDict) (k : String) (v : PyVal) :
    k ∈ dictKeys (dictSetKey d k v) := by
  induction d with
  | nil => simp [dictSetKey, dictKeys]
  | cons hd tl ih =>
    rcases hd with ⟨k2, v2⟩
    by_cases h : k2 = k
    · simp [dictSetKey, h, dictKeys]
    · rw [show dictSetKey ((k2, v2) :: tl) k v = (k2, v2) :: dictSetKey tl k v by
        simp [dictSetKey, h]]
      simpa [dictKeys] using Or.inr (by simpa [dictKeys] using ih)

theorem mem_dictKeys_setKey_of_mem (d : PyDict) (k k2 : String) (v : PyVal)
    (h : k2 ∈ dictKeys d) : k2 ∈ dictKeys (dictSetKey d k v) := by
  induction d with
  | nil => simp [dictKeys] at h
  | cons hd tl ih =>
    rcases hd with ⟨k3, v3⟩
    simp only [dictKeys, List.map_cons, List.mem_cons] at h
    by_cases hk : k3 = k
    · subst hk
      rw [show dictSetKey ((k3, v3) :: tl) k3 v = (k3, v) :: tl by
        simp [dictSetKey]]
      simp only [dictKeys, List.map_cons, List.mem_cons]
      exact h
    · rw [show dictSetKey ((k3, v3) :: tl) k v = (k3, v3) :: dictSetKey tl k v by
        simp [dictSetKey, hk]]
      simp only [dictKeys, List.map_cons, List.mem_cons]
      rcases h with h | h
      · exact Or.inl h
      · exact Or.inr (by
          simpa [dictKeys] using ih (by simpa [dictKeys] using h))

end ATSExtractor

/-- C6: running `merge_keywords` against the heap leaves the profile
object at `a` exactly as it was (same keys, same top-level values); the
two added keys live in the freshly allocated copy returned at a distinct
address. -/
theorem C6_merge_keywords_no_mutation (h : ATSExtractor.Heap) (a : Nat)
    (profile : ATSExtractor.PyDict) (kws : List String)
    (hwf : h.WF) (hget : ATSExtractor.heapGet h a = some profile) :
    ∃ b h3, ATSExtractor.merge_keywords_imp h a kws = some (b, h3) ∧
      b ≠ a ∧
      ATSExtractor.heapGet h3 a = some profile ∧
      ATSExtractor.heapGet h3 b =
        some (ATSExtractor.merge_keywords profile kws) ∧
      "ats_keywords" ∈
        ATSExtractor.dictKeys (ATSExtractor.merge_keywords profile kws) ∧
      "ats_keyword_categories" ∈
        ATSExtractor.dictKeys (ATSExtractor.merge_keywords profile kws) := by
  have hlt : a < h.next := ATSExtractor.heapGet_lt_next h a profile hwf hget
  have hne : a ≠ h.next := by omega
  have halloc := ATSExtractor.heapGet_alloc_same h profile
  have halloc_other := ATSExtractor.heapGet_alloc_other h profile a hne
  have hset1 := ATSExtractor.heapGet_set_same (ATSExtractor.heapAlloc h profile).2
    (ATSExtractor.heapAlloc h profile).1 profile
    (ATSExtractor.dictSetKey profile "ats_keywords"
      (ATSExtractor.PyVal.pstrList kws)) halloc
  rw [ATSExtractor.merge_keywords_imp, hget]
  simp only [halloc, hset1]
  refine ⟨_, _, rfl, Ne.symm hne, ?_, ?_, ?_, ?_⟩
  · -- the object at `a` is untouched
    have hne2 : a ≠ (ATSExtractor.heapAlloc h profile).1 := hne
    rw [ATSExtractor.heapGet_set_other _ _ _ _ hne2,
      ATSExtractor.heapGet_set_other _ _ _ _ hne2,
      halloc_other, hget]
  · -- the returned address holds the merged copy
    exact ATSExtractor.heapGet_set_same _ _ _
      (ATSExtractor.dictSetKey
        (ATSExtractor.dictSetKey profile "ats_keywords"
          (ATSExtractor.PyVal.pstrList kws))
        "ats_keyword_categories"
        (ATSExtractor.PyVal.pdict (ATSExtractor.categorize kws))) hset1
  · exact ATSExtractor.mem_dictKeys_setKey_of_mem _ _ _ _
      (ATSExtractor.mem_dictKeys_setKey_self _ _ _)
  · exact ATSExtractor.mem_dictKeys_setKey_self _ _ _

/-- Witness for C6 on a one-object heap. -/
theorem C6_witness :
    (⟨[(0, [("name", ATSExtractor.PyVal.pstr "x")])], 1⟩ : ATSExtractor.Heap).WF ∧
    ∃ b h3,
      ATSExtractor.merge_keywords_imp
        ⟨[(0, [("name", ATSExtractor.PyVal.pstr "x")])], 1⟩ 0 ["python"] =
          some (b, h3) ∧
      b ≠ 0 ∧
      ATSExtractor.heapGet h3 0 = some [("name", ATSExtractor.PyVal.pstr "x")] ∧
      ATSExtractor.heapGet h3 b =
        some (ATSExtractor.merge_keywords
          [("name", ATSExtractor.PyVal.pstr "x")] ["python"]) ∧
      "ats_keywords" ∈ ATSExtractor.dictKeys
        (ATSExtractor.merge_keywords
          [("name", ATSExtractor.PyVal.pstr "x")] ["python"]) ∧
      "ats_keyword_categories" ∈ ATSExtractor.dictKeys
        (ATSExtractor.merge_keywords
          [("name", ATSExtractor.PyVal.pstr "x")] ["python"]) :=
  ⟨by intro p hp; simp at hp; simp [hp],
   C6_merge_keywords_no_mutation _ 0 _ ["python"]
     (by intro p hp; simp at hp; simp [hp]) rfl⟩

/-! ### C2: the weighted match-score formula -/

theorem round_rat_mono {x y : ℚ} (h : x ≤ y) : round x ≤ round y := by
  rw [round_eq, round_eq]
  exact Int.floor_mono (by linarith)

theorem roundTo1_nonneg {q : ℚ} (h : 0 ≤ q) : 0 ≤ ATSExtractor.roundTo1 q := by
  rw [ATSExtractor.roundTo1]
  have h1 : (0 : ℤ) ≤ round (q * 10) := by
    have h2 := round_rat_mono (show (0 : ℚ) ≤ q * 10 by nlinarith)
    simpa using h2
  have h3 : (0 : ℚ) ≤ ((round (q * 10) : ℤ) : ℚ) := by exact_mod_cast h1
  linarith

theorem roundTo1_le_100 {q : ℚ} (h : q ≤ 100) :
    ATSExtractor.roundTo1 q ≤ 100 := by
  rw [ATSExtractor.roundTo1]
  have h1 : round (q * 10) ≤ (1000 : ℤ) := by
    have h2 : q * 10 ≤ ((1000 : ℤ) : ℚ) := by push_cast; linarith
    have h3 := round_rat_mono h2
    simpa [round_intCast] using h3
  have h4 : ((round (q * 10) : ℤ) : ℚ) ≤ 1000 := by exact_mod_cast h1
  linarith

/-- Pointwise agreement between the scorer's overlap test and the spec's
case analysis. -/
theorem match_points_eq (K prof : List String) (k : String) (hk : k ∈ K) :
    (if k ∈ K.filter (fun w => w ∈ prof) then
      (if ATSExtractor.isTechTerm k then (2 : ℕ) else 1) else 0) =
    (if ATSExtractor.isTechTerm k = true ∧ k ∈ prof then 2
     else if k ∈ prof then 1 else 0) := by
  by_cases hp : k ∈ prof
  · by_cases htech : ATSExtractor.isTechTerm k
    · simp [List.mem_filter, hk, hp, htech]
    · simp [List.mem_filter, hk, hp, htech]
  · simp [List.mem_filter, hp]

/-- On a non-empty keyword set the scorer computes exactly the normalized
weighted sum of the specification. -/
theorem keyword_match_score_eq (p : ATSExtractor.Profile) (jd : String)
    (hK : ATSExtractor.dedupFirst
      (ATSExtractor.extract_keywords (some jd) 30) ≠ []) :
    ATSExtractor.keyword_match_score p jd =
      ATSExtractor.roundTo1 (100 *
        (((ATSExtractor.dedupFirst
            (ATSExtractor.extract_keywords (some jd) 30)).map
           (fun k =>
             if ATSExtractor.isTechTerm k = true ∧
                 k ∈ ATSExtractor.profileTokens p then (2 : ℕ)
             else if k ∈ ATSExtractor.profileTokens p then 1 else 0)).sum : ℚ) /
        (2 * ((ATSExtractor.dedupFirst
            (ATSExtractor.extract_keywords (some jd) 30)).length : ℚ))) := by
  have hjd : ¬ jd = "" := by
    intro h
    subst h
    simp [ATSExtractor.extract_keywords, ATSExtractor.dedupFirst,
      ATSExtractor.dedupFirstAux] at hK
  have hlen : ¬ (ATSExtractor.dedupFirst
      (ATSExtractor.extract_keywords (some jd) 30)).length * 2 = 0 := by
    have := List.length_pos.mpr hK
    omega
  simp only [ATSExtractor.keyword_match_score]
  rw [if_neg hjd, if_neg hK, if_neg hlen]
  have hmap :
      (ATSExtractor.dedupFirst (ATSExtractor.extract_keywords (some jd) 30)).map
        (fun keyword =>
          if keyword ∈ (ATSExtractor.dedupFirst
              (ATSExtractor.extract_keywords (some jd) 30)).filter
              (fun w => w ∈ ATSExtractor.profileTokens p) then
            (if ATSExtractor.isTechTerm keyword then (2 : ℕ) else 1)
          else 0) =
      (ATSExtractor.dedupFirst (ATSExtractor.extract_keywords (some jd) 30)).map
        (fun k =>
          if ATSExtractor.isTechTerm k = true ∧
              k ∈ ATSExtractor.profileTokens p then (2 : ℕ)
          else if k ∈ ATSExtractor.profileTokens p then 1 else 0) :=
    List.map_congr_left (fun k hk => match_points_eq _ _ k hk)
  rw [hmap]
  congr 1
  push_cast
  ring

/-- C2: the match score is the rounded normalized weighted overlap sum —
2 points per technical keyword present among the profile tokens, 1 per
non-technical keyword present, 0 otherwise, over all job keywords —
normalized by `2 × |K|`; on the spec's example profile
`skills.technical = ["Python", "AWS"]` against keyword set
`{python, aws, docker}` it equals 66.7; and it always lies in [0, 100]. -/
theorem C2_keyword_match_score_formula :
    (∀ (p : ATSExtractor.Profile) (jd : String),
      ATSExtractor.dedupFirst
        (ATSExtractor.extract_keywords (some jd) 30) ≠ [] →
      ATSExtractor.keyword_match_score p jd =
        ATSExtractor.roundTo1 (100 *
          (((ATSExtractor.dedupFirst
              (ATSExtractor.extract_keywords (some jd) 30)).map
             (fun k =>
               if ATSExtractor.isTechTerm k = true ∧
                   k ∈ ATSExtractor.profileTokens p then (2 : ℕ)
               else if k ∈ ATSExtractor.profileTokens p then 1 else 0)).sum : ℚ) /
          (2 * ((ATSExtractor.dedupFirst
              (ATSExtractor.extract_keywords (some jd) 30)).length : ℚ)))) ∧
    ATSExtractor.keyword_match_score ⟨["Python", "AWS"], [], []⟩
      "python aws docker" = 667 / 10 ∧
    (∀ (p : ATSExtractor.Profile) (jd : String),
      0 ≤ ATSExtractor.keyword_match_score p jd ∧
      ATSExtractor.keyword_match_score p jd ≤ 100) := by
  refine ⟨keyword_match_score_eq, ?_, ?_⟩
  · rw [keyword_match_score_eq ⟨["Python", "AWS"], [], []⟩ "python aws docker"
      (by decide)]
    rw [show (((ATSExtractor.dedupFirst
        (ATSExtractor.extract_keywords (some "python aws docker") 30)).map
        (fun k =>
          if ATSExtractor.isTechTerm k = true ∧
              k ∈ ATSExtractor.profileTokens ⟨["Python", "AWS"], [], []⟩ then (2 : ℕ)
          else if k ∈ ATSExtractor.profileTokens ⟨["Python", "AWS"], [], []⟩ then 1
          else 0)).sum) = 4 by decide]
    rw [show (ATSExtractor.dedupFirst
        (ATSExtractor.extract_keywords (some "python aws docker") 30)).length = 3
      by decide]
    rw [ATSExtractor.roundTo1]
    rw [show (100 : ℚ) * ((4 : ℕ) : ℚ) / (2 * ((3 : ℕ) : ℚ)) * 10 = 2000 / 3 by
      norm_num]
    rw [show round ((2000 : ℚ) / 3) = 667 by
      rw [round_eq, show (2000 : ℚ) / 3 + 1 / 2 = 4003 / 6 by norm_num,
        Int.floor_eq_iff]
      constructor <;> norm_num]
    norm_num
  intro p jd
  by_cases hK : ATSExtractor.dedupFirst
      (ATSExtractor.extract_keywords (some jd) 30) = []
  · by_cases hjd : jd = ""
    · subst hjd
      simp [ATSExtractor.keyword_match_score]
    · constructor
      · rw [ATSExtractor.keyword_match_score, if_neg hjd]
        simp [hK]
      · rw [ATSExtractor.keyword_match_score, if_neg hjd]
        simp [hK]
  · rw [keyword_match_score_eq p jd hK]
    set K := ATSExtractor.dedupFirst
      (ATSExtractor.extract_keywords (some jd) 30) with hKdef
    set S := (K.map
      (fun k =>
        if ATSExtractor.isTechTerm k = true ∧
            k ∈ ATSExtractor.profileTokens p then (2 : ℕ)
        else if k ∈ ATSExtractor.profileTokens p then 1 else 0)).sum with hSdef
    have hlen : 0 < K.length := List.length_pos.mpr hK
    have hlenq : (0 : ℚ) < (K.length : ℚ) := by exact_mod_cast hlen
    have hbound : S ≤ K.length * 2 := by
      have h1 := List.sum_le_card_nsmul (K.map
        (fun k =>
          if ATSExtractor.isTechTerm k = true ∧
              k ∈ ATSExtractor.profileTokens p then (2 : ℕ)
          else if k ∈ ATSExtractor.profileTokens p then 1 else 0)) 2 ?_
      · simpa [List.length_map, smul_eq_mul] using h1
      · intro x hx
        rcases List.mem_map.mp hx with ⟨k, _, rfl⟩
        split
        · exact le_refl 2
        · split <;> omega
    have hboundq : (S : ℚ) ≤ (K.length : ℚ) * 2 := by exact_mod_cast hbound
    constructor
    · apply roundTo1_nonneg
      positivity
    · apply roundTo1_le_100
      rw [div_le_iff (by positivity)]
      linarith

/-- Witness for C2 at the spec's example. -/
theorem C2_witness :
    ATSExtractor.dedupFirst
      (ATSExtractor.extract_keywords (some "python aws docker") 30) ≠ [] ∧
    ATSExtractor.keyword_match_score ⟨["Python", "AWS"], [], []⟩
        "python aws docker" =
      ATSExtractor.roundTo1 (100 *
        (((ATSExtractor.dedupFirst
            (ATSExtractor.extract_keywords (some "python aws docker") 30)).map
           (fun k =>
             if ATSExtractor.isTechTerm k = true ∧
                 k ∈ ATSExtractor.profileTokens ⟨["Python", "AWS"], [], []⟩ then (2 : ℕ)
             else if k ∈ ATSExtractor.profileTokens ⟨["Python", "AWS"], [], []⟩ then 1
             else 0)).sum : ℚ) /
        (2 * ((ATSExtractor.dedupFirst
            (ATSExtractor.extract_keywords (some "python aws docker") 30)).length : ℚ))) :=
  ⟨by decide,
   C2_keyword_match_score_formula.1 ⟨["Python", "AWS"], [], []⟩
     "python aws docker" (by decide)⟩

/-! ### C1: shape and order of the extracted keyword list -/

theorem strLeChars_total : ∀ (a b : List Char),
    strLeChars a b = true ∨ strLeChars b a = true := by
  intro a
  induction a with
  | nil => intro b; exact Or.inl rfl
  | cons x xs ih =>
    intro b
    cases b with
    | nil => exact Or.inr rfl
    | cons y ys =>
      rcases Nat.lt_trichotomy x.toNat y.toNat with h | h | h
      · exact Or.inl (by simp [strLeChars, h])
      · rcases ih ys with h2 | h2
        · exact Or.inl (by simp [strLeChars, h, h2])
        · exact Or.inr (by simp [strLeChars, h, h2])
      · exact Or.inr (by simp [strLeChars, h])

theorem strLeChars_trans : ∀ (a b c : List Char),
    strLeChars a b = true → strLeChars b c = true →
    strLeChars a c = true := by
  intro a
  induction a with
  | nil => intro b c _ _; rfl
  | cons x xs ih =>
    intro b c h1 h2
    cases b with
    | nil => simp [strLeChars] at h1
    | cons y ys =>
      cases c with
      | nil => simp [strLeChars] at h2
      | cons z zs =>
        simp only [strLeChars] at h1 h2 ⊢
        by_cases hxy : x.toNat < y.toNat
        · by_cases hyz : y.toNat < z.toNat
          · rw [if_pos (show x.toNat < z.toNat by omega)]
          · by_cases hzy : z.toNat < y.toNat
            · rw [if_neg hyz, if_pos hzy] at h2
              exact absurd h2 (by simp)
            · rw [if_pos (show x.toNat < z.toNat by omega)]
        · by_cases hyx : y.toNat < x.toNat
          · rw [if_neg hxy, if_pos hyx] at h1
            exact absurd h1 (by simp)
          · rw [if_neg hxy, if_neg hyx] at h1
            by_cases hyz : y.toNat < z.toNat
            · rw [if_pos (show x.toNat < z.toNat by omega)]
            · by_cases hzy : z.toNat < y.toNat
              · rw [if_neg hyz, if_pos hzy] at h2
                exact absurd h2 (by simp)
              · rw [if_neg hyz, if_neg hzy] at h2
                rw [if_neg (show ¬ x.toNat < z.toNat by omega),
                  if_neg (show ¬ z.toNat < x.toNat by omega)]
                exact ih ys zs h1 h2

theorem scoreKeyLE_total (a b : String × Nat × Nat) :
    ATSExtractor.scoreKeyLE a b = true ∨ ATSExtractor.scoreKeyLE b a = true := by
  simp only [ATSExtractor.scoreKeyLE, decide_eq_true_eq]
  rcases Nat.lt_trichotomy a.2.1 b.2.1 with h | h | h
  · exact Or.inr (Or.inl h)
  · rcases Nat.lt_trichotomy a.2.2 b.2.2 with h2 | h2 | h2
    · exact Or.inr (Or.inr ⟨h.symm, Or.inl h2⟩)
    · rcases strLeChars_total a.1.data b.1.data with h3 | h3
      · exact Or.inl (Or.inr ⟨h, Or.inr ⟨h2, h3⟩⟩)
      · exact Or.inr (Or.inr ⟨h.symm, Or.inr ⟨h2.symm, h3⟩⟩)
    · exact Or.inl (Or.inr ⟨h, Or.inl h2⟩)
  · exact Or.inl (Or.inl h)

theorem scoreKeyLE_trans (a b c : String × Nat × Nat)
    (h1 : ATSExtractor.scoreKeyLE a b = true)
    (h2 : ATSExtractor.scoreKeyLE b c = true) :
    ATSExtractor.scoreKeyLE a c = true := by
  simp only [ATSExtractor.scoreKeyLE, decide_eq_true_eq] at h1 h2 ⊢
  rcases h1 with h1 | ⟨hs1, h1⟩
  · rcases h2 with h2 | ⟨hs2, h2⟩
    · exact Or.inl (by omega)
    · exact Or.inl (by omega)
  · rcases h2 with h2 | ⟨hs2, h2⟩
    · exact Or.inl (by omega)
    · refine Or.inr ⟨by omega, ?_⟩
      rcases h1 with h1 | ⟨hc1, h1⟩
      · rcases h2 with h2 | ⟨hc2, h2⟩
        · exact Or.inl (by omega)
        · exact Or.inl (by omega)
      · rcases h2 with h2 | ⟨hc2, h2⟩
        · exact Or.inl (by omega)
        · exact Or.inr ⟨by omega, strLeChars_trans _ _ _ h1 h2⟩

instance : IsTotal (String × Nat × Nat) ATSExtractor.scoreKeyRel :=
  ⟨fun a b => scoreKeyLE_total a b⟩

instance : IsTrans (String × Nat × Nat) ATSExtractor.scoreKeyRel :=
  ⟨fun a b c h1 h2 => scoreKeyLE_trans a b c h1 h2⟩

theorem takeUniqueSeen_eq_take :
    ∀ (l : List (String × Nat × Nat)) (acc : List String) (n : Nat),
      (l.map (fun e => e.1)).Nodup → (∀ e ∈ l, e.1 ∉ acc) →
      acc.length < n →
      ATSExtractor.takeUniqueSeen l acc n =
        acc.reverse ++ (l.map (fun e => e.1)).take (n - acc.length) := by
  intro l
  induction l with
  | nil =>
    intro acc n _ _ _
    simp [ATSExtractor.takeUniqueSeen]
  | cons e rest ih =>
    intro acc n hnd hdisj hlt
    rcases e with ⟨w, s, c⟩
    have hw : w ∉ acc := hdisj (w, s, c) (List.mem_cons_self _ _)
    have hnd2 : ((w, s, c) :: rest).map (fun e => e.1) =
        w :: rest.map (fun e => e.1) := rfl
    rw [hnd2] at hnd
    simp only [ATSExtractor.takeUniqueSeen, if_neg hw]
    by_cases hn : n ≤ (w :: acc).length
    · rw [if_pos hn]
      have hlen : n - acc.length = 1 := by
        simp only [List.length_cons] at hn
        omega
      rw [hnd2, hlen, List.take_succ_cons, List.take_zero, List.reverse_cons]
    · rw [if_neg hn]
      have hrec := ih (w :: acc) n (List.nodup_cons.mp hnd).2 ?_ ?_
      · rw [hrec, hnd2]
        have hsplit : n - acc.length = (n - (w :: acc).length) + 1 := by
          have hcons : (w :: acc).length = acc.length + 1 := List.length_cons _ _
          omega
        rw [hsplit, List.take_succ_cons, List.reverse_cons, List.append_assoc,
          List.singleton_append]
      · intro e2 he2
        intro hmem
        rcases List.mem_cons.mp hmem with h | h
        · exact (List.nodup_cons.mp hnd).1
            (h ▸ List.mem_map.mpr ⟨e2, he2, rfl⟩)
        · exact hdisj e2 (List.mem_cons_of_mem _ he2) h
      · have hcons : (w :: acc).length = acc.length + 1 := List.length_cons _ _
        omega

theorem mem_pyStripChars {cs s : List Char} {c : Char}
    (h : c ∈ pyStripChars cs s) : c ∈ s := by
  rw [pyStripChars, List.mem_reverse] at h
  have h2 := (List.dropWhile_sublist _).subset h
  rw [List.mem_reverse] at h2
  exact (List.dropWhile_sublist _).subset h2

theorem mem_pySplitAux (w : String) :
    ∀ (l acc : List Char), w ∈ pySplitAux l acc →
      ∀ c ∈ w.data, c ∈ l ∨ c ∈ acc := by
  intro l
  induction l with
  | nil =>
    intro acc hw c hc
    by_cases hacc : acc = []
    · subst hacc
      simp [pySplitAux] at hw
    · rw [show pySplitAux [] acc = [⟨acc.reverse⟩] by simp [pySplitAux, hacc]]
        at hw
      rcases List.mem_singleton.mp hw with rfl
      exact Or.inr (List.mem_reverse.mp hc)
  | cons c0 rest ih =>
    intro acc hw c hc
    by_cases hsp : isPySpace c0
    · by_cases hacc : acc = []
      · subst hacc
        rw [show pySplitAux (c0 :: rest) [] = pySplitAux rest [] by
          simp [pySplitAux, hsp]] at hw
        rcases ih [] hw c hc with h | h
        · exact Or.inl (List.mem_cons_of_mem _ h)
        · simp at h
      · rw [show pySplitAux (c0 :: rest) acc = ⟨acc.reverse⟩ :: pySplitAux rest []
            by simp [pySplitAux, hsp, hacc]] at hw
        rcases List.mem_cons.mp hw with rfl | hw
        · exact Or.inr (List.mem_reverse.mp hc)
        · rcases ih [] hw c hc with h | h
          · exact Or.inl (List.mem_cons_of_mem _ h)
          · simp at h
    · rw [show pySplitAux (c0 :: rest) acc = pySplitAux rest (c0 :: acc) by
        simp [pySplitAux, hsp]] at hw
      rcases ih (c0 :: acc) hw c hc with h | h
      · exact Or.inl (List.mem_cons_of_mem _ h)
      · rcases List.mem_cons.mp h with rfl | h
        · exact Or.inl (List.mem_cons_self _ _)
        · exact Or.inr h

theorem toLower_not_upper (c : Char) : (Char.toLower c).isUpper = false := by
  simp only [Char.toLower, Char.isUpper, Char.ofNat]
  split
  · split
    · simp only [Char.ofNatAux]
      simp [UInt32.le_def, BitVec.le_def]
      omega
    · rename_i h1 h2
      exact absurd (Or.inl (by omega)) h2
  · rename_i h
    simp only [ge_iff_le, not_and, not_le, Char.toNat] at h
    simp [UInt32.le_def, BitVec.le_def, Char.toNat, UInt32.toNat] at h ⊢
    omega

theorem clean_text_lower (s : String) (c : Char)
    (h : c ∈ (ATSExtractor.clean_text s).data) : c.isUpper = false := by
  rw [ATSExtractor.clean_text] at h
  by_cases hs : s = ""
  · rw [if_pos hs] at h
    simp at h
  · rw [if_neg hs] at h
    have h2 := mem_pyStripChars
      (show c ∈ pyStripChars pySpaceChars
        ((collapseWS (s.data.map (fun d => if isKeptChar d then d else ' '))).map
          Char.toLower) from h)
    rcases List.mem_map.mp h2 with ⟨d, _, rfl⟩
    exact toLower_not_upper d

/-- Every token produced by `tokenize` is the punctuation-stripped form of
a cleaned word of length ≥ 3 that is not a stopword; its own length is ≥ 2
and it contains no uppercase character. -/
theorem tokenize_sound (s t : String) (ht : t ∈ ATSExtractor.tokenize s) :
    ∃ w : String, w ∉ ATSExtractor.STOPWORDS ∧ 3 ≤ w.length ∧
      t = ⟨pyStripChars ATSExtractor.stripTokenChars w.data⟩ ∧ 2 ≤ t.length ∧
      (∀ c ∈ t.data, c.isUpper = false) := by
  rw [ATSExtractor.tokenize] at ht
  rcases List.mem_filterMap.mp ht with ⟨w, hw, hsome⟩
  by_cases h1 : 3 ≤ w.length ∧ w ∉ ATSExtractor.STOPWORDS
  · rw [if_pos h1] at hsome
    by_cases h2 : 2 ≤ (⟨pyStripChars ATSExtractor.stripTokenChars w.data⟩ : String).length
    · rw [if_pos h2] at hsome
      have heq := Option.some.inj hsome
      subst heq
      refine ⟨w, h1.2, h1.1, rfl, h2, ?_⟩
      intro c hc
      have hcw : c ∈ w.data := mem_pyStripChars hc
      rcases mem_pySplitAux w (ATSExtractor.clean_text s).data [] hw c hcw with h | h
      · exact clean_text_lower s c h
      · simp at h
    · rw [if_neg h2] at hsome
      exact absurd hsome (by simp)
  · rw [if_neg h1] at hsome
    exact absurd hsome (by simp)

/-- Each scored triple is its word together with that word's boosted score
and raw count, and the word is a token. -/
theorem mem_scoredTriples (jd : String) (e : String × Nat × Nat)
    (he : e ∈ ATSExtractor.scoredTriples jd) :
    e = (e.1, ATSExtractor.kwScore jd e.1, ATSExtractor.kwCount jd e.1) ∧
      e.1 ∈ ATSExtractor.tokenize jd := by
  rcases List.mem_map.mp he with ⟨p, hp, rfl⟩
  rcases List.mem_map.mp hp with ⟨w, hw, rfl⟩
  exact ⟨rfl, (ATSExtractor.mem_dedupFirst _ _).mp hw⟩

theorem scoredTriples_words (jd : String) :
    (ATSExtractor.scoredTriples jd).map (fun e => e.1) =
      ATSExtractor.dedupFirst (ATSExtractor.tokenize jd) := by
  rw [ATSExtractor.scoredTriples, ATSExtractor.counterItems, List.map_map,
    List.map_map]
  exact (List.map_congr_left (fun a _ => rfl)).trans (List.map_id' _)

theorem nodup_sorted_words (jd : String) :
    ((ATSExtractor.sortedTriples jd).map (fun e => e.1)).Nodup := by
  have hperm : ((ATSExtractor.sortedTriples jd).map (fun e => e.1)).Perm
      ((ATSExtractor.scoredTriples jd).map (fun e => e.1)) :=
    (List.perm_insertionSort ATSExtractor.scoreKeyRel
      (ATSExtractor.scoredTriples jd)).map (fun e => e.1)
  rw [(hperm.nodup_iff), scoredTriples_words]
  exact ATSExtractor.nodup_dedupFirst _

theorem mem_sorted_words_tokenize (jd : String) (t : String)
    (ht : t ∈ (ATSExtractor.sortedTriples jd).map (fun e => e.1)) :
    t ∈ ATSExtractor.tokenize jd := by
  rcases List.mem_map.mp ht with ⟨e, he, rfl⟩
  have he2 := (List.perm_insertionSort ATSExtractor.scoreKeyRel
    (ATSExtractor.scoredTriples jd)).mem_iff.mp he
  exact (mem_scoredTriples jd e he2).2

theorem pairwise_sorted_words (jd : String) :
    ((ATSExtractor.sortedTriples jd).map (fun e => e.1)).Pairwise
      (fun w1 w2 => ATSExtractor.scoreKeyLE
        (w1, ATSExtractor.kwScore jd w1, ATSExtractor.kwCount jd w1)
        (w2, ATSExtractor.kwScore jd w2, ATSExtractor.kwCount jd w2) = true) := by
  have hsorted : (ATSExtractor.sortedTriples jd).Pairwise ATSExtractor.scoreKeyRel :=
    List.sorted_insertionSort ATSExtractor.scoreKeyRel
      (ATSExtractor.scoredTriples jd)
  rw [List.pairwise_map]
  refine hsorted.imp_of_mem ?_
  intro a b ha hb hr
  have ha2 := (List.perm_insertionSort ATSExtractor.scoreKeyRel
    (ATSExtractor.scoredTriples jd)).mem_iff.mp ha
  have hb2 := (List.perm_insertionSort ATSExtractor.scoreKeyRel
    (ATSExtractor.scoredTriples jd)).mem_iff.mp hb
  have hca := (mem_scoredTriples jd a ha2).1
  have hcb := (mem_scoredTriples jd b hb2).1
  rw [← hca, ← hcb]
  exact hr

theorem extract_keywords_unfold (jd : String) (n : Nat) (hjd : ¬ jd = "")
    (htok : ¬ ATSExtractor.tokenize jd = []) :
    ATSExtractor.extract_keywords (some jd) n =
      ATSExtractor.takeUniqueSeen
        ((ATSExtractor.sortedTriples jd).take (n * 2)) [] n := by
  simp only [ATSExtractor.extract_keywords]
  rw [if_neg hjd, if_neg htok]
  rfl

/-- On the non-trivial path, the extracted keyword list is the first
`top_n` words of the sorted scored list. -/
theorem extract_keywords_eq_take (jd : String) (n : Nat) (hjd : ¬ jd = "")
    (htok : ¬ ATSExtractor.tokenize jd = []) (hn : 0 < n) :
    ATSExtractor.extract_keywords (some jd) n =
      ((ATSExtractor.sortedTriples jd).map (fun e => e.1)).take n := by
  rw [extract_keywords_unfold jd n hjd htok]
  have hnd : (((ATSExtractor.sortedTriples jd).take (n * 2)).map
      (fun e => e.1)).Nodup := by
    rw [List.map_take]
    exact List.Nodup.sublist (List.take_sublist _ _) (nodup_sorted_words jd)
  rw [takeUniqueSeen_eq_take _ [] n hnd (by simp) (by simpa using hn)]
  rw [List.map_take, List.take_take]
  simp only [List.reverse_nil, List.nil_append, List.length_nil, Nat.sub_zero]
  rw [Nat.min_eq_left (by omega)]

/-- C1 (amended): for every job description and positive `top_n`, the
extracted list has at most `top_n` entries, is duplicate-free, contains no
uppercase character, each entry being the punctuation-stripped form of a
cleaned non-stopword word of length ≥ 3 (the stripped entry itself may be
a stopword), and is ordered by boosted score descending, then raw count
descending, then alphabetically. -/
theorem C1_extract_keywords_shape (jd : String) (top_n : Nat)
    (hpos : 0 < top_n) :
    (ATSExtractor.extract_keywords (some jd) top_n).length ≤ top_n ∧
    (ATSExtractor.extract_keywords (some jd) top_n).Nodup ∧
    (∀ t ∈ ATSExtractor.extract_keywords (some jd) top_n,
      ∀ c ∈ t.data, c.isUpper = false) ∧
    (∀ t ∈ ATSExtractor.extract_keywords (some jd) top_n,
      ∃ w : String, w ∉ ATSExtractor.STOPWORDS ∧ 3 ≤ w.length ∧
        t = ⟨pyStripChars ATSExtractor.stripTokenChars w.data⟩ ∧
        2 ≤ t.length) ∧
    (ATSExtractor.extract_keywords (some jd) top_n).Pairwise
      (fun w1 w2 => ATSExtractor.scoreKeyLE
        (w1, ATSExtractor.kwScore jd w1, ATSExtractor.kwCount jd w1)
        (w2, ATSExtractor.kwScore jd w2, ATSExtractor.kwCount jd w2) = true) := by
  by_cases hjd : jd = ""
  · have hempty : ATSExtractor.extract_keywords (some jd) top_n = [] := by
      subst hjd; rfl
    simp [hempty]
  · by_cases htok : ATSExtractor.tokenize jd = []
    · have hempty : ATSExtractor.extract_keywords (some jd) top_n = [] := by
        simp only [ATSExtractor.extract_keywords]
        rw [if_neg hjd, if_pos htok]
      simp [hempty]
    · rw [extract_keywords_eq_take jd top_n hjd htok hpos]
      refine ⟨List.length_take_le _ _, ?_, ?_, ?_, ?_⟩
      · exact List.Nodup.sublist (List.take_sublist _ _) (nodup_sorted_words jd)
      · intro t ht
        have ht2 := (List.take_sublist _ _).subset ht
        have ht3 := mem_sorted_words_tokenize jd t ht2
        rcases tokenize_sound jd t ht3 with ⟨w, _, _, _, _, hlow⟩
        exact hlow
      · intro t ht
        have ht2 := (List.take_sublist _ _).subset ht
        have ht3 := mem_sorted_words_tokenize jd t ht2
        rcases tokenize_sound jd t ht3 with ⟨w, hst, hlen3, hstrip, hlen2, _⟩
        exact ⟨w, hst, hlen3, hstrip, hlen2⟩
      · exact List.Pairwise.sublist (List.take_sublist _ _)
          (pairwise_sorted_words jd)

/-- Witness for C1 at `jd = "python aws docker"`, `top_n = 30`. -/
theorem C1_witness :
    0 < 30 ∧
    ((ATSExtractor.extract_keywords (some "python aws docker") 30).length ≤ 30 ∧
    (ATSExtractor.extract_keywords (some "python aws docker") 30).Nodup ∧
    (∀ t ∈ ATSExtractor.extract_keywords (some "python aws docker") 30,
      ∀ c ∈ t.data, c.isUpper = false) ∧
    (∀ t ∈ ATSExtractor.extract_keywords (some "python aws docker") 30,
      ∃ w : String, w ∉ ATSExtractor.STOPWORDS ∧ 3 ≤ w.length ∧
        t = ⟨pyStripChars ATSExtractor.stripTokenChars w.data⟩ ∧
        2 ≤ t.length) ∧
    (ATSExtractor.extract_keywords (some "python aws docker") 30).Pairwise
      (fun w1 w2 => ATSExtractor.scoreKeyLE
        (w1, ATSExtractor.kwScore "python aws docker" w1,
          ATSExtractor.kwCount "python aws docker" w1)
        (w2, ATSExtractor.kwScore "python aws docker" w2,
          ATSExtractor.kwCount "python aws docker" w2) = true)) :=
  ⟨by decide, C1_extract_keywords_shape "python aws docker" 30 (by decide)⟩

/-- C1 counterexample to the claim as stated: on the input `"-to-"` the
stopword test is applied before the punctuation strip, so the single
returned keyword `"to"` IS a member of the stopword set. -/
theorem C1_counterexample :
    ATSExtractor.extract_keywords (some "-to-") 30 = ["to"] ∧
    "to" ∈ ATSExtractor.STOPWORDS := by
  exact ⟨by decide, by decide⟩

